import Mathlib

/-!
Verification of the ipckit core against its specification.

This file shallowly embeds the parts of `crates/ipckit/src` that the
checked properties speak about: the error taxonomy (`error.rs`), the framed
message channel (`channel.rs`), the shutdown state (`graceful.rs`), the
thread channel (`thread_channel.rs`), the event filter and event bus
(`event_stream.rs`), the task state machine (`task_manager.rs`) and the
socket server's accept (`socket_server.rs`).

Machine integers are modelled as `Nat` (with an explicit `% 2 ^ 32` where
the code casts to `u32`); Rust strings are `List Char`; byte buffers are
`List Nat`; wall-clock instants are `Nat`; fallible operations return
`Except IpcError`; operations on shared mutable state are explicit
state-passing functions, interpreted over a single sequentially consistent
interleaving point (each Rust method body runs atomically between the
states it is applied to).
-/

namespace Ipckit

/-- The closed error sum of `error.rs` (`IpcError`). The payload of `Io` is
an external `std::io::Error` value and is elided; string payloads are kept.
-/
inductive IpcError where
  | io
  | closed
  | invalidName (s : String)
  | alreadyExists (s : String)
  | notFound (s : String)
  | permissionDenied (s : String)
  | timeout
  | bufferTooSmall (needed : Nat) (got : Nat)
  | serialization (s : String)
  | deserialization (s : String)
  | platform (s : String)
  | invalidState (s : String)
  | wouldBlock
  | other (s : String)
deriving DecidableEq

/-! ## Framed message channel (`channel.rs`) -/

/-- `MAX_MESSAGE_SIZE` in `channel.rs`: 16 MiB. -/
def MAX_MESSAGE_SIZE : Nat := 16 * 1024 * 1024

/-- `u32::to_le_bytes` on a value already reduced modulo `2 ^ 32`:
the four bytes, least significant first. -/
def u32ToLeBytes (n : Nat) : List Nat :=
  [n % 256, n / 256 % 256, n / 2 ^ 16 % 256, n / 2 ^ 24 % 256]

/-- `u32::from_le_bytes` applied to four bytes, least significant first. -/
def u32FromLeBytes (b0 b1 b2 b3 : Nat) : Nat :=
  b0 + 256 * b1 + 2 ^ 16 * b2 + 2 ^ 24 * b3

/-- `IpcChannel::<Vec<u8>>::send_bytes` (`channel.rs` lines 72-87).
Oversize data fails `BufferTooSmall` before anything is written; otherwise
the bytes put on the wire are the 4-byte little-endian length header
(`data.len() as u32`, the cast is the `% 2 ^ 32`) followed by the data.
The `write_all` calls on the underlying pipe are modelled as returning the
written bytes; an `Io` failure of the pipe is outside this model. -/
def IpcChannel.send_bytes (data : List Nat) : Except IpcError (List Nat) :=
  if data.length > MAX_MESSAGE_SIZE then
    .error (.bufferTooSmall data.length MAX_MESSAGE_SIZE)
  else
    .ok (u32ToLeBytes (data.length % 2 ^ 32) ++ data)

/-- `IpcChannel::<Vec<u8>>::recv_bytes` (`channel.rs` lines 90-107) against
an incoming byte stream: `read_exact` the 4-byte header (a stream shorter
than the header is an EOF, an `Io` error), decode the little-endian length,
reject lengths above `MAX_MESSAGE_SIZE` with `BufferTooSmall` before the
payload buffer is allocated, then `read_exact` exactly `len` payload bytes.
Returns the payload and the unconsumed remainder of the stream. -/
def IpcChannel.recv_bytes (stream : List Nat) :
    Except IpcError (List Nat × List Nat) :=
  match stream with
  | b0 :: b1 :: b2 :: b3 :: rest =>
    let len := u32FromLeBytes b0 b1 b2 b3
    if len > MAX_MESSAGE_SIZE then
      .error (.bufferTooSmall len MAX_MESSAGE_SIZE)
    else if rest.length < len then
      .error .io
    else
      .ok (rest.take len, rest.drop len)
  | _ => .error .io

/-! ## Shutdown state (`graceful.rs`) -/

/-- `ShutdownState` (`graceful.rs` lines 62-68): an atomic shutdown flag and
an atomic pending-operation counter. -/
structure ShutdownState where
  shutdown : Bool
  pending_count : Nat
deriving DecidableEq

/-- `ShutdownState::new`. -/
def ShutdownState.new : ShutdownState :=
  { shutdown := false, pending_count := 0 }

/-- `ShutdownState::shutdown`. -/
def ShutdownState.shutdownOp (s : ShutdownState) : ShutdownState :=
  { s with shutdown := true }

/-- `ShutdownState::is_shutdown`. -/
def ShutdownState.is_shutdown (s : ShutdownState) : Bool :=
  s.shutdown

/-- `ShutdownState::begin_operation` (`graceful.rs` lines 96-109): check the
flag, increment `pending_count`, re-check the flag (undoing the increment if
it trips), and only then hand out a guard. Returns the operation's result
together with the state it leaves behind. -/
def ShutdownState.begin_operation (s : ShutdownState) :
    Except IpcError Unit × ShutdownState :=
  if s.is_shutdown then
    (.error .closed, s)
  else
    let s1 := { s with pending_count := s.pending_count + 1 }
    if s1.is_shutdown then
      (.error .closed, { s1 with pending_count := s1.pending_count - 1 })
    else
      (.ok (), s1)

/-- `OperationGuard::drop` (`graceful.rs` lines 142-146): decrement the
pending counter. -/
def ShutdownState.guardDrop (s : ShutdownState) : ShutdownState :=
  { s with pending_count := s.pending_count - 1 }

/-- `ShutdownState::wait_for_drain(None)` (`graceful.rs` lines 117-134):
poll `pending_count == 0` with a 1 ms sleep and no deadline. In a
sequential run nothing else decrements the counter while the caller spins,
so the call returns `Ok` exactly when the counter is already zero and never
returns (`none`) otherwise. -/
def ShutdownState.wait_for_drain_none (s : ShutdownState) : Option Unit :=
  if s.pending_count = 0 then some () else none

/-! ## Thread channel (`thread_channel.rs`)

`ThreadSender`/`ThreadReceiver` share a crossbeam channel and an
`Arc<ShutdownState>`; the shared state of one channel is modelled as one
record. The crossbeam collaborator's contract: `try_recv` yields the head
of a non-empty queue, `Empty` on an empty queue with a sender alive and
`Disconnected` on an empty queue with every sender dropped; sends fail
`Disconnected` once every receiver is dropped; a blocking operation that
cannot complete in a sequential run is reported as `blocks`. -/

/-- Outcome of one channel operation: a value, an `IpcError`, or a blocking
call that never returns in a sequential run. -/
inductive ChanRes (α : Type) where
  | ok (a : α)
  | err (e : IpcError)
  | blocks
deriving DecidableEq

/-- The shared state behind one `ThreadChannel`: the queued elements in FIFO
order, the capacity (`none` for unbounded), whether every sender (resp.
receiver) clone has been dropped, and the attached `ShutdownState`'s flag
and pending-operation counter. -/
structure ThreadChannelSt (α : Type) where
  queue : List α
  cap : Option Nat
  sendersDropped : Bool
  receiversDropped : Bool
  shutdown : Bool
  pending_count : Nat
deriving DecidableEq

/-- Whether the underlying bounded queue is at capacity
(`Sender::is_full`; always false for unbounded). -/
def ThreadChannelSt.isFullInner {α : Type} (c : ThreadChannelSt α) : Bool :=
  match c.cap with
  | some n => decide (n ≤ c.queue.length)
  | none => false

/-- `ThreadSender::send` (`thread_channel.rs` lines 75-81): `Closed` at once
when the attached shutdown state is signalled, else the inner blocking send.
-/
def ThreadSender.send {α : Type} (c : ThreadChannelSt α) (x : α) :
    ChanRes Unit × ThreadChannelSt α :=
  if c.shutdown then (.err .closed, c)
  else if c.receiversDropped then (.err .closed, c)
  else if c.isFullInner then (.blocks, c)
  else (.ok (), { c with queue := c.queue ++ [x] })

/-- `ThreadSender::try_send` (`thread_channel.rs` lines 89-98). -/
def ThreadSender.try_send {α : Type} (c : ThreadChannelSt α) (x : α) :
    ChanRes Unit × ThreadChannelSt α :=
  if c.shutdown then (.err .closed, c)
  else if c.receiversDropped then (.err .closed, c)
  else if c.isFullInner then (.err .wouldBlock, c)
  else (.ok (), { c with queue := c.queue ++ [x] })

/-- `ThreadSender::send_timeout` (`thread_channel.rs` lines 106-118); on a
full queue no space appears in a sequential run, so the inner timed send
times out. -/
def ThreadSender.send_timeout {α : Type} (c : ThreadChannelSt α) (x : α) :
    ChanRes Unit × ThreadChannelSt α :=
  if c.shutdown then (.err .closed, c)
  else if c.receiversDropped then (.err .closed, c)
  else if c.isFullInner then (.err .timeout, c)
  else (.ok (), { c with queue := c.queue ++ [x] })

/-- `ThreadReceiver::try_recv` (`thread_channel.rs` lines 174-179): no
shutdown check; `Empty` maps to `WouldBlock`, `Disconnected` to `Closed`. -/
def ThreadReceiver.try_recv {α : Type} (c : ThreadChannelSt α) :
    ChanRes α × ThreadChannelSt α :=
  match c.queue with
  | x :: rest => (.ok x, { c with queue := rest })
  | [] => if c.sendersDropped then (.err .closed, c) else (.err .wouldBlock, c)

/-- `ThreadReceiver::recv` (`thread_channel.rs` lines 159-166): under a
signalled shutdown state it drains with `inner.try_recv()`, mapping any
failure to `Closed`; otherwise the inner blocking recv. -/
def ThreadReceiver.recv {α : Type} (c : ThreadChannelSt α) :
    ChanRes α × ThreadChannelSt α :=
  if c.shutdown then
    match c.queue with
    | x :: rest => (.ok x, { c with queue := rest })
    | [] => (.err .closed, c)
  else
    match c.queue with
    | x :: rest => (.ok x, { c with queue := rest })
    | [] => if c.sendersDropped then (.err .closed, c) else (.blocks, c)

/-- `ThreadReceiver::recv_timeout` (`thread_channel.rs` lines 187-196):
under a signalled shutdown state it returns `self.try_recv()`; otherwise
the inner timed recv, which in a sequential run on an empty queue with a
sender alive times out. -/
def ThreadReceiver.recv_timeout {α : Type} (c : ThreadChannelSt α) :
    ChanRes α × ThreadChannelSt α :=
  if c.shutdown then ThreadReceiver.try_recv c
  else
    match c.queue with
    | x :: rest => (.ok x, { c with queue := rest })
    | [] => if c.sendersDropped then (.err .closed, c) else (.err .timeout, c)

/-- The loop `while self.try_recv().is_ok() {}` shared by the two
`GracefulChannel::drain` impls (`thread_channel.rs` lines 347-351 and
397-400): `try_recv` succeeds exactly on a non-empty queue and pops its
head, so each iteration discards the head until the queue is empty. -/
def ThreadReceiver.drainLoop {α : Type} (c : ThreadChannelSt α) :
    ThreadChannelSt α :=
  match h : c.queue with
  | [] => c
  | _ :: rest => ThreadReceiver.drainLoop { c with queue := rest }
termination_by c.queue.length
decreasing_by simp [h]

/-- `impl GracefulChannel for ThreadReceiver — drain` (`thread_channel.rs`
lines 397-400): discard every queued element, then `Ok`. -/
def ThreadReceiver.drain {α : Type} (c : ThreadChannelSt α) :
    Except IpcError Unit × ThreadChannelSt α :=
  (.ok (), ThreadReceiver.drainLoop c)

/-- `impl GracefulChannel for ThreadChannel — drain` (`thread_channel.rs`
lines 347-351): the same loop, through `self.receiver`. -/
def ThreadChannel.drain {α : Type} (c : ThreadChannelSt α) :
    Except IpcError Unit × ThreadChannelSt α :=
  (.ok (), ThreadReceiver.drainLoop c)

/-- The `while !is_empty` loop of both `shutdown_timeout` impls
(`thread_channel.rs` lines 353-366 and 402-415): each iteration first
checks the deadline, then discards one element with `try_recv` and sleeps
1 ms. `fuel` is the number of iterations the deadline admits (the timeout
in milliseconds). -/
def shutdownTimeoutLoop {α : Type} (fuel : Nat) (c : ThreadChannelSt α) :
    Except IpcError Unit × ThreadChannelSt α :=
  match c.queue with
  | [] => (.ok (), c)
  | _ :: rest =>
    match fuel with
    | 0 => (.error .timeout, c)
    | f + 1 => shutdownTimeoutLoop f { c with queue := rest }

/-- `impl GracefulChannel for ThreadChannel — shutdown_timeout`: signal
shutdown, then drain the queue against the deadline. -/
def ThreadChannel.shutdown_timeout {α : Type} (fuel : Nat)
    (c : ThreadChannelSt α) : Except IpcError Unit × ThreadChannelSt α :=
  shutdownTimeoutLoop fuel { c with shutdown := true }

/-- `impl GracefulChannel for ThreadReceiver — shutdown_timeout`: the same
loop on the receiver. -/
def ThreadReceiver.shutdown_timeout {α : Type} (fuel : Nat)
    (c : ThreadChannelSt α) : Except IpcError Unit × ThreadChannelSt α :=
  shutdownTimeoutLoop fuel { c with shutdown := true }

/-- The concrete channel state exhibiting C5's failure: shutdown signalled,
queue empty, senders still alive. -/
def c5State : ThreadChannelSt Nat :=
  { queue := [], cap := none, sendersDropped := false,
    receiversDropped := false, shutdown := true, pending_count := 0 }

/-- A concrete channel state with queued elements and a live pending
operation, for the drain witnesses. -/
def c10State : ThreadChannelSt Nat :=
  { queue := [1, 2, 3], cap := some 8, sendersDropped := false,
    receiversDropped := false, shutdown := false, pending_count := 7 }

/-! ## Event filter and event bus (`event_stream.rs`)

Rust strings are modelled as `List Char`; `str::find`, `str::split`,
`str::starts_with`, `str::ends_with` and `str::contains` are reproduced on
character lists. -/

/-- `str::find(part)` of `&hay[..]`: the index of the first occurrence of
`needle` as a contiguous run inside `hay` (`some 0` for an empty needle). -/
def findSub (needle : List Char) (hay : List Char) : Option Nat :=
  if needle.isPrefixOf hay then some 0
  else
    match hay with
    | [] => none
    | _ :: t => (findSub needle t).map (· + 1)

/-- `str::split(c)`: the runs between occurrences of `c`, empty runs
included; never the empty list. -/
def splitChar (c : Char) : List Char → List (List Char)
  | [] => [[]]
  | x :: xs =>
    if x = c then [] :: splitChar c xs
    else
      match splitChar c xs with
      | [] => [[x]]
      | h :: t => (x :: h) :: t

/-- `pattern.ends_with(".*")`. -/
def endsWithDotStar (p : List Char) : Bool :=
  match p.reverse with
  | '*' :: '.' :: _ => true
  | _ => false

/-- The glob loop of `EventFilter::matches` (`event_stream.rs` lines
236-250): walk the split parts with their index `i`, skipping empty parts;
each remaining part is located with `find` in the not-yet-consumed tail of
the event type (from byte position `pos`); a part at index 0 found anywhere
but the start rejects; otherwise `pos` advances past the found part. -/
def globLoop (et : List Char) : List (List Char) → Nat → Nat → Bool
  | [], _, _ => true
  | part :: rest, i, pos =>
    if part = [] then globLoop et rest (i + 1) pos
    else
      match findSub part (et.drop pos) with
      | some found =>
        if i = 0 ∧ found ≠ 0 then false
        else globLoop et rest (i + 1) (pos + found + part.length)
      | none => false

/-- One pattern test inside `EventFilter::matches` (`event_stream.rs` lines
230-255): a trailing `.*` tests `starts_with` on the pattern minus its last
two characters; any other pattern containing `*` runs the glob loop;
otherwise the pattern must equal the event type. -/
def patternMatches (pat et : List Char) : Bool :=
  if endsWithDotStar pat then (pat.take (pat.length - 2)).isPrefixOf et
  else if pat.contains '*' then globLoop et (splitChar '*' pat) 0 0
  else decide (et = pat)

/-- `Event` (`event_stream.rs` lines 49-61); the `data` payload
(`serde_json::Value`, an external type) is never read by the filter or the
history ring and is elided. -/
structure Event where
  id : Nat
  timestamp : Nat
  event_type : List Char
  resource_id : Option (List Char)
deriving DecidableEq

/-- `EventFilter` (`event_stream.rs` lines 181-190). -/
structure EventFilter where
  event_types : Option (List (List Char))
  resource_ids : Option (List (List Char))
  since : Option Nat
  untilTime : Option Nat
deriving DecidableEq

/-- `EventFilter::new` — the empty filter. -/
def emptyFilter : EventFilter :=
  { event_types := none, resource_ids := none, since := none,
    untilTime := none }

/-- `EventFilter::matches` (`event_stream.rs` lines 227-288): the
early-return chain as a conjunction — some pattern matches the event type
(when patterns are configured), the event's resource id is among the
configured ids (an event without one fails a configured id list), and the
timestamp is not before `since` nor after `until`. -/
def EventFilter.matches (f : EventFilter) (e : Event) : Bool :=
  (match f.event_types with
   | some patterns => patterns.any fun pat => patternMatches pat e.event_type
   | none => true) &&
  (match f.resource_ids with
   | some ids =>
     match e.resource_id with
     | some r => ids.any fun i => i == r
     | none => false
   | none => true) &&
  (match f.since with
   | some t => !decide (e.timestamp < t)
   | none => true) &&
  (match f.untilTime with
   | some t => !decide (t < e.timestamp)
   | none => true)

/-! Specification-side reading of C7, stated from the claim's words, to be
proved equivalent to `EventFilter.matches` above. -/

/-- Claim's glob reading, the ordered-occurrence part: the literal parts
appear left to right, each beginning at or after the end of the previous
one. -/
def partsOccur : List (List Char) → List Char → Prop
  | [], _ => True
  | p :: ps, s =>
    ∃ i, p.isPrefixOf (s.drop i) = true ∧ partsOccur ps (s.drop (i + p.length))

/-- Claim's glob reading: split the pattern on `*`; a leading literal is
anchored at the start (a pattern starting with `*` has an empty first part,
which anchors nothing), the remaining literal parts appear in order after
it. -/
def specGlob (pat et : List Char) : Prop :=
  match splitChar '*' pat with
  | [] => True
  | p :: ps => p.isPrefixOf et = true ∧ partsOccur ps (et.drop p.length)

/-- Claim's reading of one pattern: a pattern ending in `.*` matches
exactly the event types whose prefix equals the pattern with its last two
characters removed; a pattern containing `*` but not ending in `.*` matches
as the left-to-right glob; a pattern without `*` matches only the identical
event type. -/
def specPatternMatches (pat et : List Char) : Prop :=
  if endsWithDotStar pat then ∃ t, et = pat.take (pat.length - 2) ++ t
  else if pat.contains '*' then specGlob pat et
  else et = pat

/-- Claim's event-type dimension: unconfigured, or some configured pattern
matches. -/
def specTypeDim (f : EventFilter) (e : Event) : Prop :=
  match f.event_types with
  | none => True
  | some pats => ∃ pat ∈ pats, specPatternMatches pat e.event_type

/-- Claim's resource dimension: unconfigured, or the event carries one of
the configured resource ids. -/
def specResourceDim (f : EventFilter) (e : Event) : Prop :=
  match f.resource_ids with
  | none => True
  | some ids => ∃ r, e.resource_id = some r ∧ r ∈ ids

/-- Claim's time dimension: the timestamp lies in the configured inclusive
range. -/
def specTimeDim (f : EventFilter) (e : Event) : Prop :=
  (∀ t, f.since = some t → t ≤ e.timestamp) ∧
  (∀ t, f.untilTime = some t → e.timestamp ≤ t)

/-- Greedy left-to-right matching of literal parts against ever-shorter
suffixes: the glob loop of the code, freed of its position arithmetic and
of the index `i` (whose only role is anchoring the first part). -/
def greedyParts : List (List Char) → List Char → Bool
  | [], _ => true
  | p :: ps, s =>
    if p = [] then greedyParts ps s
    else
      match findSub p s with
      | some n => greedyParts ps (s.drop (n + p.length))
      | none => false

/-! ## Event bus history (`event_stream.rs`) -/

/-- The trim loop of `EventBusInner::publish` (`event_stream.rs` lines
496-499): pop the front while the length exceeds `history_size`. -/
def trimHistory (n : Nat) (h : List Event) : List Event :=
  if hgt : h.length > n then trimHistory n h.tail else h
termination_by h.length
decreasing_by
  simp only [List.length_tail]
  omega

/-- The history block of `EventBusInner::publish` (`event_stream.rs` lines
490-500): push the event at the back of the ring, then trim from the
front. The subscriber fan-out that follows in `publish` never touches the
history, so the history after any sequence of publishes is the fold of
this function. -/
def EventBusInner.publishHistory (history_size : Nat) (hist : List Event)
    (e : Event) : List Event :=
  trimHistory history_size (hist ++ [e])

/-! ## Socket server accept (`socket_server.rs`) -/

/-- The accept-relevant state of a `SocketServer`: the listener's backlog
of pending client streams (each a handle value), the `next_id` counter, the
connection map as insertion-ordered (id, stream) pairs, and the shutdown
flag. -/
structure ServerSt where
  pendingStreams : List Nat
  nextId : Nat
  connections : List (Nat × Nat)
  shutdown : Bool
deriving DecidableEq

/-- `SocketServer::accept` (`socket_server.rs` lines 484-502), as written:
after the shutdown check it accepts one stream from the listener, takes one
id, builds a `Connection` and stores it in the connection map — and then
accepts a second stream, takes a second id, and returns that second
connection (the comment in the source says "Return a new connection (we
store a copy in the map)", but what is stored is the first accepted
connection, not a copy of the returned one). A listener accept with an
empty backlog blocks. -/
def SocketServer.accept (s : ServerSt) : ChanRes (Nat × Nat) × ServerSt :=
  if s.shutdown then (.err .closed, s)
  else
    match s.pendingStreams with
    | [] => (.blocks, s)
    | st1 :: rest =>
      let id1 := s.nextId
      let s1 : ServerSt :=
        { s with
          pendingStreams := rest,
          nextId := s.nextId + 1,
          connections := s.connections ++ [(id1, st1)] }
      match s1.pendingStreams with
      | [] => (.blocks, s1)
      | st2 :: rest2 =>
        let id2 := s1.nextId
        (.ok (id2, st2),
          { s1 with pendingStreams := rest2, nextId := s1.nextId + 1 })

/-- A server with `next_id = 1`, no connections yet, and two clients
pending in the listener backlog (stream handles 10 and 20). -/
def c4Server : ServerSt :=
  { pendingStreams := [10, 20], nextId := 1, connections := [],
    shutdown := false }

/-! ## Task state machine (`task_manager.rs`)

The `status` and `progress` atomics are kept in lock-step with the
`RwLock<TaskInfo>` record by `set_status`/`set_progress`, so the shared
state of one task is modelled as a single record; `result` values
(`serde_json::Value`, an external type) are tracked only as present or
absent. Each Rust method body is one atomic step of the model. -/

/-- `TaskStatus` (`task_manager.rs` lines 49-62). -/
inductive TaskStatus where
  | pending
  | running
  | paused
  | completed
  | failed
  | cancelled
deriving DecidableEq

/-- `TaskStatus::is_terminal` (`task_manager.rs` lines 66-68). -/
def TaskStatus.is_terminal (s : TaskStatus) : Bool :=
  match s with
  | .completed | .failed | .cancelled => true
  | _ => false

/-- The `Debug` rendering of a `TaskStatus`, as interpolated into the
`InvalidState` messages. -/
def TaskStatus.debugName (s : TaskStatus) : String :=
  match s with
  | .pending => "Pending"
  | .running => "Running"
  | .paused => "Paused"
  | .completed => "Completed"
  | .failed => "Failed"
  | .cancelled => "Cancelled"

/-- The mutable state of one task (`TaskState` plus the fields of its
`TaskInfo` the lifecycle operations read or write). -/
structure TaskState where
  status : TaskStatus
  progress : Nat
  progress_message : Option String
  started_at : Option Nat
  finished_at : Option Nat
  error : Option String
  hasResult : Bool
  cancelled : Bool
deriving DecidableEq

/-- `TaskState::set_status` (`task_manager.rs` lines 249-252): write the
atomic cell and the record. -/
def TaskState.set_status (s : TaskState) (st : TaskStatus) : TaskState :=
  { s with status := st }

/-- `TaskState::set_progress` (`task_manager.rs` lines 254-263): clamp to
100, write the atomic cell and the record, and update the message only when
one is given. -/
def TaskState.set_progress (s : TaskState) (p : Nat) (msg : Option String) :
    TaskState :=
  { s with
    progress := min p 100,
    progress_message :=
      match msg with
      | some m => some m
      | none => s.progress_message }

/-- `TaskHandle::progress` (`task_manager.rs` lines 291-293): read the
atomic progress cell. -/
def TaskHandle.progress (s : TaskState) : Nat :=
  s.progress

/-- `TaskHandle::set_progress` (`task_manager.rs` lines 296-300): update the
state (the `task.progress` event publication does not touch the task
state). -/
def TaskHandle.set_progress (s : TaskState) (p : Nat) (msg : Option String) :
    TaskState :=
  s.set_progress p msg

/-- `TaskHandle::start` (`task_manager.rs` lines 328-332): unconditionally
set `Running` and stamp `started_at`. -/
def TaskHandle.start (now : Nat) (s : TaskState) : TaskState :=
  { s.set_status .running with started_at := some now }

/-- `TaskHandle::complete` (`task_manager.rs` lines 335-346):
unconditionally set `Completed`, clamp progress to 100 with the message
"Completed", stamp `finished_at`, store the result. -/
def TaskHandle.complete (now : Nat) (s : TaskState) : TaskState :=
  let s := s.set_status .completed
  let s := s.set_progress 100 (some "Completed")
  { s with finished_at := some now, hasResult := true }

/-- `TaskHandle::fail` (`task_manager.rs` lines 349-359): unconditionally
set `Failed`, stamp `finished_at`, store the error. -/
def TaskHandle.fail (now : Nat) (err : String) (s : TaskState) : TaskState :=
  let s := s.set_status .failed
  { s with finished_at := some now, error := some err }

/-- `TaskManager::cancel` on a registered task (`task_manager.rs` lines
596-609): latch the cancellation token, set `Cancelled` unconditionally,
stamp `finished_at`. -/
def TaskManager.cancelTask (now : Nat) (s : TaskState) : TaskState :=
  let s := { s with cancelled := true }
  let s := s.set_status .cancelled
  { s with finished_at := some now }

/-- `TaskManager::pause` on a registered task (`task_manager.rs` lines
612-634): legal only from `Running`, otherwise `InvalidState` with the
state untouched. -/
def TaskManager.pauseTask (s : TaskState) : Except IpcError TaskState :=
  if s.status ≠ TaskStatus.running then
    .error (.invalidState
      ("Cannot pause task in " ++ s.status.debugName ++ " state"))
  else
    .ok (s.set_status .paused)

/-- `TaskManager::resume` on a registered task (`task_manager.rs` lines
637-659): legal only from `Paused`, otherwise `InvalidState` with the state
untouched. -/
def TaskManager.resumeTask (s : TaskState) : Except IpcError TaskState :=
  if s.status ≠ TaskStatus.paused then
    .error (.invalidState
      ("Cannot resume task in " ++ s.status.debugName ++ " state"))
  else
    .ok (s.set_status .running)

/-- One lifecycle operation applied to a task through its handle or its
manager. -/
inductive TaskOp where
  | start (now : Nat)
  | complete (now : Nat)
  | failure (now : Nat) (err : String)
  | cancel (now : Nat)
  | pause
  | resume
  | setProgress (p : Nat) (msg : Option String)

/-- Apply one operation to the task state; the operations that reject with
`InvalidState` leave the state unchanged. -/
def TaskOp.apply (op : TaskOp) (s : TaskState) : TaskState :=
  match op with
  | .start now => TaskHandle.start now s
  | .complete now => TaskHandle.complete now s
  | .failure now e => TaskHandle.fail now e s
  | .cancel now => TaskManager.cancelTask now s
  | .pause =>
    match TaskManager.pauseTask s with
    | .ok s1 => s1
    | .error _ => s
  | .resume =>
    match TaskManager.resumeTask s with
    | .ok s1 => s1
    | .error _ => s
  | .setProgress p m => TaskState.set_progress s p m

/-- The state of a freshly created task (`TaskManager::create`,
`task_manager.rs` lines 519-553): `Pending`, progress 0, no timestamps, no
error, no result, token unset. -/
def initialTask : TaskState :=
  { status := .pending, progress := 0, progress_message := none,
    started_at := none, finished_at := none, error := none,
    hasResult := false, cancelled := false }

/-- Run a sequence of lifecycle operations on a freshly created task. -/
def runTaskOps (ops : List TaskOp) : TaskState :=
  ops.foldl (fun s op => op.apply s) initialTask

/-- A step a client of one `ShutdownState` can take: attempt
`begin_operation`, drop one outstanding guard, or call `shutdown`. -/
inductive ShutOp where
  | beginOp
  | dropGuard
  | shut

/-- One client step over the state paired with the number of outstanding
(undropped) guards; dropping with no guard outstanding is a no-op since no
guard exists to be dropped. -/
def shutStep : ShutdownState × Nat → ShutOp → ShutdownState × Nat
  | (s, g), .beginOp =>
    match s.begin_operation with
    | (.ok _, s1) => (s1, g + 1)
    | (.error _, s1) => (s1, g)
  | (s, g), .dropGuard => if 0 < g then (s.guardDrop, g - 1) else (s, g)
  | (s, g), .shut => (s.shutdownOp, g)

/-- Run a sequence of client steps from a fresh `ShutdownState`. -/
def runShut (tr : List ShutOp) : ShutdownState × Nat :=
  tr.foldl shutStep (ShutdownState.new, 0)

end Ipckit

namespace Ipckit

/-! ## Round-trip of the 32-bit little-endian length -/

theorem u32_le_roundtrip (n : Nat) (h : n < 2 ^ 32) :
    u32FromLeBytes (n % 256) (n / 256 % 256) (n / 2 ^ 16 % 256)
      (n / 2 ^ 24 % 256) = n := by
  simp only [u32FromLeBytes]
  omega

/-- C2: a framed send followed by a framed receive on the resulting wire
bytes is the identity on buffers of at most 16 MiB: `send_bytes` emits the
4-byte little-endian length followed by the data, and `recv_bytes` applied
to that frame (with anything after it on the stream) returns exactly the
sent buffer and leaves the following bytes unconsumed. -/
theorem c2_framed_roundtrip (data rest : List Nat)
    (h : data.length ≤ MAX_MESSAGE_SIZE) :
    IpcChannel.send_bytes data = .ok (u32ToLeBytes data.length ++ data) ∧
    IpcChannel.recv_bytes (u32ToLeBytes data.length ++ data ++ rest) =
      .ok (data, rest) := by
  have hmax : MAX_MESSAGE_SIZE = 16777216 := rfl
  have hlt : data.length < 2 ^ 32 := by omega
  constructor
  · simp only [IpcChannel.send_bytes, Nat.mod_eq_of_lt hlt]
    rw [if_neg (by omega)]
  · simp only [u32ToLeBytes, List.cons_append, List.nil_append,
      List.append_assoc, IpcChannel.recv_bytes,
      u32_le_roundtrip data.length hlt]
    rw [if_neg (by omega), if_neg (by simp)]
    rw [List.take_left, List.drop_left]

/-- Witness for C2 at the concrete 5-byte buffer from the spec's framed-echo
scenario. -/
theorem c2_framed_roundtrip_witness :
    IpcChannel.send_bytes [72, 101, 108, 108, 111] =
      .ok (u32ToLeBytes 5 ++ [72, 101, 108, 108, 111]) ∧
    IpcChannel.recv_bytes (u32ToLeBytes 5 ++ [72, 101, 108, 108, 111] ++ [9, 9]) =
      .ok ([72, 101, 108, 108, 111], [9, 9]) :=
  c2_framed_roundtrip [72, 101, 108, 108, 111] [9, 9] (by decide)

/-- C3: the size boundary of the framing. A buffer of exactly 16 MiB is
accepted by `send_bytes`; one byte more fails with
`BufferTooSmall(needed = |data|, got = 16 MiB)`, and the failing branch
returns before any wire bytes are produced; symmetrically, a stream whose
4-byte header declares any length above 16 MiB makes `recv_bytes` fail with
`BufferTooSmall(needed = N, got = 16 MiB)`, in the branch taken before the
payload is touched. -/
theorem c3_size_boundary (dAtMax dOver junk : List Nat) (n : Nat)
    (hAt : dAtMax.length = MAX_MESSAGE_SIZE)
    (hOver : dOver.length = MAX_MESSAGE_SIZE + 1)
    (hn : MAX_MESSAGE_SIZE < n) (hn32 : n < 2 ^ 32) :
    IpcChannel.send_bytes dAtMax = .ok (u32ToLeBytes MAX_MESSAGE_SIZE ++ dAtMax) ∧
    IpcChannel.send_bytes dOver =
      .error (.bufferTooSmall (MAX_MESSAGE_SIZE + 1) MAX_MESSAGE_SIZE) ∧
    IpcChannel.recv_bytes (u32ToLeBytes n ++ junk) =
      .error (.bufferTooSmall n MAX_MESSAGE_SIZE) := by
  have hmax : MAX_MESSAGE_SIZE = 16777216 := rfl
  refine ⟨?_, ?_, ?_⟩
  · simp only [IpcChannel.send_bytes, hAt]
    rw [if_neg (by omega), Nat.mod_eq_of_lt (by omega)]
  · simp only [IpcChannel.send_bytes, hOver]
    rw [if_pos (by omega)]
  · simp only [u32ToLeBytes, List.cons_append, List.nil_append,
      IpcChannel.recv_bytes, u32_le_roundtrip n hn32]
    rw [if_pos (by omega)]

/-- Witness for C3 at `16 MiB`, `16 MiB + 1` and declared length
`16,777,217`. -/
theorem c3_size_boundary_witness :
    IpcChannel.send_bytes (List.replicate 16777216 0) =
      .ok (u32ToLeBytes MAX_MESSAGE_SIZE ++ List.replicate 16777216 0) ∧
    IpcChannel.send_bytes (List.replicate 16777217 0) =
      .error (.bufferTooSmall (MAX_MESSAGE_SIZE + 1) MAX_MESSAGE_SIZE) ∧
    IpcChannel.recv_bytes (u32ToLeBytes 16777217 ++ []) =
      .error (.bufferTooSmall 16777217 MAX_MESSAGE_SIZE) :=
  c3_size_boundary (List.replicate 16777216 0) (List.replicate 16777217 0) [] 16777217
    (by rw [List.length_replicate]; rfl) (by rw [List.length_replicate]; rfl)
    (by decide) (by decide)

/-! ## Shutdown state: pending counter tracks outstanding guards -/

theorem shutStep_pending (s : ShutdownState) (g : Nat) (op : ShutOp)
    (h : s.pending_count = g) :
    (shutStep (s, g) op).1.pending_count = (shutStep (s, g) op).2 := by
  cases op with
  | beginOp =>
    simp only [shutStep, ShutdownState.begin_operation, ShutdownState.is_shutdown]
    by_cases hs : s.shutdown = true
    · simp [hs]
      exact h
    · simp [hs]
      simpa using h
  | dropGuard =>
    by_cases hg : 0 < g
    · simp [shutStep, if_pos hg, ShutdownState.guardDrop]
      omega
    · simp only [shutStep, if_neg hg]
      exact h
  | shut =>
    simpa [shutStep, ShutdownState.shutdownOp] using h

theorem runShut_pending (tr : List ShutOp) :
    (runShut tr).1.pending_count = (runShut tr).2 := by
  suffices h : ∀ p : ShutdownState × Nat, p.1.pending_count = p.2 →
      (tr.foldl shutStep p).1.pending_count = (tr.foldl shutStep p).2 from
    h (ShutdownState.new, 0) rfl
  induction tr with
  | nil => exact fun p h => h
  | cons op rest ih =>
    exact fun p h => ih (shutStep p op) (shutStep_pending p.1 p.2 op h)

/-- C6: along any sequence of `begin_operation` / guard-drop / `shutdown`
steps on one `ShutdownState`, (a) once `shutdown` has been signalled every
further `begin_operation` fails with `Closed` and leaves the state — in
particular the pending counter — unchanged, (b) whenever `begin_operation`
fails it leaves the pending counter as it found it (any increment is undone
before returning), and (c) once every outstanding guard has been dropped,
`wait_for_drain(None)` returns `Ok`. -/
theorem c6_shutdown_gates_and_drain (tr : List ShutOp) :
    ((runShut tr).1.shutdown = true →
      ShutdownState.begin_operation (runShut tr).1 =
        (.error .closed, (runShut tr).1)) ∧
    (∀ s : ShutdownState, ∀ e, s.begin_operation.1 = .error e →
      s.begin_operation.2.pending_count = s.pending_count) ∧
    ((runShut tr).2 = 0 →
      ShutdownState.wait_for_drain_none (runShut tr).1 = some ()) := by
  refine ⟨?_, ?_, ?_⟩
  · intro hs
    simp [ShutdownState.begin_operation, ShutdownState.is_shutdown, hs]
  · intro s e he
    simp only [ShutdownState.begin_operation, ShutdownState.is_shutdown] at he ⊢
    by_cases hs : s.shutdown = true
    · simp [hs]
    · simp [hs] at he
  · intro hg
    have hp := runShut_pending tr
    simp only [ShutdownState.wait_for_drain_none]
    rw [if_pos (hp.trans hg)]

/-! ## Socket server: the double accept -/

/-- C4 evaluated at the failing input: with two clients pending and
`next_id = 1`, a single `accept()` call consumes BOTH pending streams and
two ids; the connection `(1, 10)` is stored in the map but never returned,
and the call yields the second connection `(2, 20)` — against the claim
that every `accept` performs exactly one listener accept. (With only one
client pending, the call stores `(1, 10)` and then blocks in the second
listener accept, returning nothing.) -/
theorem c4_accept_double_accepts :
    SocketServer.accept c4Server =
      (.ok (2, 20),
        { pendingStreams := [], nextId := 3, connections := [(1, 10)],
          shutdown := false }) ∧
    SocketServer.accept { c4Server with pendingStreams := [10] } =
      (.blocks,
        { pendingStreams := [], nextId := 2, connections := [(1, 10)],
          shutdown := false }) :=
  ⟨rfl, rfl⟩

/-! ## Event bus history: the ring bound -/

theorem trimHistory_eq_aux :
    ∀ (k n : Nat) (h : List Event), h.length ≤ k →
      trimHistory n h = h.drop (h.length - n) := by
  intro k
  induction k with
  | zero =>
    intro n h hk
    have hnil : h = [] := List.eq_nil_of_length_eq_zero (by omega)
    subst hnil
    rw [trimHistory]
    simp
  | succ k ih =>
    intro n h hk
    rw [trimHistory]
    by_cases hgt : h.length > n
    · rw [dif_pos hgt]
      cases h with
      | nil => simp at hgt
      | cons a t =>
        rw [List.tail_cons, ih n t (by simp at hk; omega)]
        have hle : n ≤ t.length := by simp at hgt; omega
        have heq : (a :: t).length - n = (t.length - n) + 1 := by
          simp
          omega
        rw [heq, List.drop_succ_cons]
    · rw [dif_neg hgt]
      have heq : h.length - n = 0 := by omega
      rw [heq, List.drop_zero]

theorem trimHistory_eq (n : Nat) (h : List Event) :
    trimHistory n h = h.drop (h.length - n) :=
  trimHistory_eq_aux h.length n h (le_refl _)

/-- C8: after any publish — whatever history the preceding publishes left —
the history ring holds at most `history_size` events (also for
`history_size = 0`), and what it holds is the suffix of the published
sequence: eviction removes the oldest (front) events. -/
theorem c8_history_bound (history_size : Nat) (hist : List Event)
    (e : Event) :
    (EventBusInner.publishHistory history_size hist e).length ≤
      history_size ∧
    EventBusInner.publishHistory history_size hist e =
      (hist ++ [e]).drop ((hist.length + 1) - history_size) := by
  constructor
  · rw [EventBusInner.publishHistory, trimHistory_eq]
    simp
    omega
  · rw [EventBusInner.publishHistory, trimHistory_eq]
    simp

/-! ## Event filter: pattern matching -/

theorem isPrefixOf_iff_exists (l₁ l₂ : List Char) :
    l₁.isPrefixOf l₂ = true ↔ ∃ t, l₂ = l₁ ++ t := by
  rw [List.isPrefixOf_iff_prefix]
  constructor
  · rintro ⟨t, ht⟩
    exact ⟨t, ht.symm⟩
  · rintro ⟨t, ht⟩
    exact ⟨t, ht.symm⟩

theorem findSub_none (p : List Char) :
    ∀ s, findSub p s = none → ∀ i, ¬ (p.isPrefixOf (s.drop i) = true) := by
  intro s
  induction s with
  | nil =>
    intro h i
    rw [findSub] at h
    by_cases hp : p.isPrefixOf ([] : List Char) = true
    · rw [if_pos hp] at h
      exact absurd h (by simp)
    · simpa using hp
  | cons x t ih =>
    intro h i
    rw [findSub] at h
    by_cases hp : p.isPrefixOf (x :: t) = true
    · rw [if_pos hp] at h
      exact absurd h (by simp)
    · rw [if_neg hp] at h
      have ht : findSub p t = none := by
        cases hfs : findSub p t with
        | none => rfl
        | some m => rw [hfs] at h; simp at h
      cases i with
      | zero => simpa using hp
      | succ j =>
        rw [List.drop_succ_cons]
        exact ih ht j

theorem findSub_some (p : List Char) :
    ∀ s n, findSub p s = some n →
      p.isPrefixOf (s.drop n) = true ∧
      ∀ k, k < n → ¬ (p.isPrefixOf (s.drop k) = true) := by
  intro s
  induction s with
  | nil =>
    intro n h
    rw [findSub] at h
    by_cases hp : p.isPrefixOf ([] : List Char) = true
    · rw [if_pos hp] at h
      have hn : n = 0 := by simpa using h.symm
      subst hn
      exact ⟨by simpa using hp, fun k hk => absurd hk (by omega)⟩
    · rw [if_neg hp] at h
      exact absurd h (by simp)
  | cons x t ih =>
    intro n h
    rw [findSub] at h
    by_cases hp : p.isPrefixOf (x :: t) = true
    · rw [if_pos hp] at h
      have hn : n = 0 := by simpa using h.symm
      subst hn
      exact ⟨by simpa using hp, fun k hk => absurd hk (by omega)⟩
    · rw [if_neg hp] at h
      cases hfs : findSub p t with
      | none => rw [hfs] at h; simp at h
      | some m =>
        rw [hfs] at h
        have hn : n = m + 1 := by simpa using h.symm
        subst hn
        obtain ⟨h1, h2⟩ := ih m hfs
        refine ⟨by rwa [List.drop_succ_cons], ?_⟩
        intro k hk
        cases k with
        | zero => simpa using hp
        | succ j =>
          rw [List.drop_succ_cons]
          exact h2 j (by omega)

theorem partsOccur_of_drop (ps : List (List Char)) (t : List Char) (d : Nat)
    (h : partsOccur ps (t.drop d)) : partsOccur ps t := by
  cases ps with
  | nil => trivial
  | cons p rest =>
    obtain ⟨i, h1, h2⟩ := h
    refine ⟨d + i, ?_, ?_⟩
    · rwa [List.drop_drop] at h1
    · rw [List.drop_drop] at h2
      have heq : d + (i + p.length) = d + i + p.length := by omega
      rwa [heq] at h2

theorem partsOccur_of_greedy :
    ∀ (ps : List (List Char)) (s : List Char),
      greedyParts ps s = true → partsOccur ps s := by
  intro ps
  induction ps with
  | nil =>
    intro s _
    trivial
  | cons p rest ih =>
    intro s h
    by_cases hp : p = []
    · subst hp
      rw [greedyParts, if_pos rfl] at h
      exact ⟨0, by simp [List.isPrefixOf], by simpa using ih s h⟩
    · rw [greedyParts, if_neg hp] at h
      cases hfs : findSub p s with
      | none => rw [hfs] at h; exact absurd h (by simp)
      | some n =>
        rw [hfs] at h
        obtain ⟨h1, _⟩ := findSub_some p s n hfs
        exact ⟨n, h1, ih _ h⟩

theorem greedy_of_partsOccur :
    ∀ (ps : List (List Char)) (s : List Char),
      partsOccur ps s → greedyParts ps s = true := by
  intro ps
  induction ps with
  | nil =>
    intro s _
    rfl
  | cons p rest ih =>
    intro s h
    obtain ⟨i, h1, h2⟩ := h
    by_cases hp : p = []
    · subst hp
      rw [greedyParts, if_pos rfl]
      refine ih s (partsOccur_of_drop rest s i ?_)
      simpa using h2
    · rw [greedyParts, if_neg hp]
      cases hfs : findSub p s with
      | none => exact absurd h1 (findSub_none p s hfs i)
      | some n =>
        obtain ⟨hn1, hn2⟩ := findSub_some p s n hfs
        have hni : n ≤ i := by
          by_contra hc
          exact hn2 i (by omega) h1
        refine ih _ (partsOccur_of_drop rest (s.drop (n + p.length))
          (i - n) ?_)
        rw [List.drop_drop]
        have heq : n + p.length + (i - n) = i + p.length := by omega
        rwa [heq]

theorem globLoop_cons_some (et p : List Char) (rest : List (List Char))
    (i pos n : Nat) (hp : p ≠ []) (hfs : findSub p (et.drop pos) = some n) :
    globLoop et (p :: rest) i pos =
      if i = 0 ∧ n ≠ 0 then false
      else globLoop et rest (i + 1) (pos + n + p.length) := by
  rw [globLoop, if_neg hp, hfs]

theorem globLoop_cons_none (et p : List Char) (rest : List (List Char))
    (i pos : Nat) (hp : p ≠ []) (hfs : findSub p (et.drop pos) = none) :
    globLoop et (p :: rest) i pos = false := by
  rw [globLoop, if_neg hp, hfs]

theorem greedyParts_cons_some (p : List Char) (ps : List (List Char))
    (s : List Char) (n : Nat) (hp : p ≠ []) (hfs : findSub p s = some n) :
    greedyParts (p :: ps) s = greedyParts ps (s.drop (n + p.length)) := by
  rw [greedyParts, if_neg hp, hfs]

theorem greedyParts_cons_none (p : List Char) (ps : List (List Char))
    (s : List Char) (hp : p ≠ []) (hfs : findSub p s = none) :
    greedyParts (p :: ps) s = false := by
  rw [greedyParts, if_neg hp, hfs]

theorem globLoop_eq_greedy (et : List Char) :
    ∀ (parts : List (List Char)) (i pos : Nat), i ≠ 0 →
      globLoop et parts i pos = greedyParts parts (et.drop pos) := by
  intro parts
  induction parts with
  | nil =>
    intros
    rfl
  | cons p rest ih =>
    intro i pos hi
    by_cases hp : p = []
    · rw [globLoop, if_pos hp, greedyParts, if_pos hp]
      exact ih (i + 1) pos (by omega)
    · cases hfs : findSub p (et.drop pos) with
      | none => rw [globLoop_cons_none et p rest i pos hp hfs,
          greedyParts_cons_none p rest _ hp hfs]
      | some n =>
        rw [globLoop_cons_some et p rest i pos n hp hfs,
          greedyParts_cons_some p rest _ n hp hfs,
          if_neg (fun hc => hi hc.1),
          ih (i + 1) (pos + n + p.length) (by omega), List.drop_drop]
        have heq : pos + n + p.length = pos + (n + p.length) := by omega
        rw [heq]

theorem globLoop_zero_eq_spec (pat et : List Char) :
    globLoop et (splitChar '*' pat) 0 0 = true ↔ specGlob pat et := by
  rw [specGlob]
  cases hsp : splitChar '*' pat with
  | nil => simp [globLoop]
  | cons p ps =>
    by_cases hp : p = []
    · subst hp
      rw [globLoop, if_pos rfl,
        globLoop_eq_greedy et ps 1 0 (by omega), List.drop_zero]
      constructor
      · intro h
        exact ⟨by simp [List.isPrefixOf], by
          simpa using partsOccur_of_greedy ps et h⟩
      · intro h
        exact greedy_of_partsOccur ps et (by simpa using h.2)
    · cases hfs : findSub p et with
      | none =>
        rw [globLoop_cons_none et p ps 0 0 hp (by rwa [List.drop_zero])]
        constructor
        · intro h
          exact absurd h (by simp)
        · intro h
          exact absurd h.1 (findSub_none p et hfs 0)
      | some n =>
        obtain ⟨hn1, hn2⟩ := findSub_some p et n hfs
        rw [globLoop_cons_some et p ps 0 0 n hp (by rwa [List.drop_zero])]
        cases n with
        | zero =>
          rw [if_neg (by omega)]
          rw [globLoop_eq_greedy et ps 1 (0 + 0 + p.length) (by omega)]
          constructor
          · intro h
            refine ⟨by simpa using hn1, ?_⟩
            simpa using partsOccur_of_greedy ps _ h
          · intro h
            apply greedy_of_partsOccur ps _
            simpa using h.2
        | succ m =>
          rw [if_pos (by omega)]
          constructor
          · intro h
            exact absurd h (by simp)
          · intro h
            exact absurd h.1 (hn2 0 (by omega))

theorem patternMatches_iff_spec (pat et : List Char) :
    patternMatches pat et = true ↔ specPatternMatches pat et := by
  rw [patternMatches, specPatternMatches]
  by_cases hd : endsWithDotStar pat = true
  · rw [if_pos hd, if_pos hd]
    exact isPrefixOf_iff_exists _ et
  · rw [if_neg hd, if_neg hd]
    by_cases hc : pat.contains '*' = true
    · rw [if_pos hc, if_pos hc]
      exact globLoop_zero_eq_spec pat et
    · rw [if_neg hc, if_neg hc]
      exact decide_eq_true_iff

theorem typeDim_iff (f : EventFilter) (e : Event) :
    (match f.event_types with
     | some patterns => patterns.any fun pat => patternMatches pat e.event_type
     | none => true) = true ↔ specTypeDim f e := by
  rw [specTypeDim.eq_def]
  cases hft : f.event_types with
  | none => simp
  | some pats =>
    simp only [List.any_eq_true]
    constructor
    · rintro ⟨pat, hmem, hp⟩
      exact ⟨pat, hmem, (patternMatches_iff_spec pat e.event_type).mp hp⟩
    · rintro ⟨pat, hmem, hp⟩
      exact ⟨pat, hmem, (patternMatches_iff_spec pat e.event_type).mpr hp⟩

theorem resourceDim_iff (f : EventFilter) (e : Event) :
    (match f.resource_ids with
     | some ids =>
       match e.resource_id with
       | some r => ids.any fun i => i == r
       | none => false
     | none => true) = true ↔ specResourceDim f e := by
  rw [specResourceDim.eq_def]
  cases hr : f.resource_ids with
  | none => simp
  | some ids =>
    cases he : e.resource_id with
    | none => simp
    | some r =>
      simp only [List.any_eq_true, beq_iff_eq, Option.some.injEq]
      constructor
      · rintro ⟨x, hmem, rfl⟩
        exact ⟨x, rfl, hmem⟩
      · rintro ⟨r2, rfl, hmem⟩
        exact ⟨r, hmem, rfl⟩

theorem sinceDim_iff (f : EventFilter) (e : Event) :
    (match f.since with
     | some t => !decide (e.timestamp < t)
     | none => true) = true ↔
      (∀ t, f.since = some t → t ≤ e.timestamp) := by
  cases hs : f.since with
  | none => simp
  | some t =>
    simp only [Bool.not_eq_true', decide_eq_false_iff_not, Nat.not_lt,
      Option.some.injEq]
    constructor
    · intro h t2 ht2
      subst ht2
      exact h
    · intro h
      exact h t rfl

theorem untilDim_iff (f : EventFilter) (e : Event) :
    (match f.untilTime with
     | some t => !decide (t < e.timestamp)
     | none => true) = true ↔
      (∀ t, f.untilTime = some t → e.timestamp ≤ t) := by
  cases hs : f.untilTime with
  | none => simp
  | some t =>
    simp only [Bool.not_eq_true', decide_eq_false_iff_not, Nat.not_lt,
      Option.some.injEq]
    constructor
    · intro h t2 ht2
      subst ht2
      exact h
    · intro h
      exact h t rfl

/-- C7: `EventFilter::matches` is a pure function of the filter and the
event (it is a function of exactly those two values in this model), the
empty filter matches every event, and a configured filter matches exactly
when every configured dimension matches, with the pattern semantics of the
claim: a trailing `.*` matches the event types extending the pattern minus
its last two characters, any other pattern with `*` matches as the
left-to-right glob with an anchored leading literal, and a pattern without
`*` matches only the identical event type. -/
theorem c7_filter_matches_spec (f : EventFilter) (e : Event) :
    (EventFilter.matches f e = true ↔
      specTypeDim f e ∧ specResourceDim f e ∧ specTimeDim f e) ∧
    EventFilter.matches emptyFilter e = true := by
  have hmain : ∀ g : EventFilter, EventFilter.matches g e = true ↔
      specTypeDim g e ∧ specResourceDim g e ∧ specTimeDim g e := by
    intro g
    rw [EventFilter.matches.eq_def]
    simp only [Bool.and_eq_true]
    rw [typeDim_iff g e, resourceDim_iff g e, sinceDim_iff g e,
      untilDim_iff g e, specTimeDim]
    tauto
  refine ⟨hmain f, ?_⟩
  rw [hmain emptyFilter]
  refine ⟨?_, ?_, ?_, ?_⟩ <;>
    simp [specTypeDim, specResourceDim, emptyFilter]

/-! ## Task state machine: terminal states -/

theorem taskOp_preserves_terminal_finished (s : TaskState) (op : TaskOp)
    (h : s.status.is_terminal = true → s.finished_at.isSome = true) :
    (op.apply s).status.is_terminal = true →
      (op.apply s).finished_at.isSome = true := by
  cases op with
  | start now =>
    simp [TaskOp.apply, TaskHandle.start, TaskState.set_status,
      TaskStatus.is_terminal]
  | complete now =>
    simp [TaskOp.apply, TaskHandle.complete, TaskState.set_status,
      TaskState.set_progress]
  | failure now e =>
    simp [TaskOp.apply, TaskHandle.fail, TaskState.set_status]
  | cancel now =>
    simp [TaskOp.apply, TaskManager.cancelTask, TaskState.set_status]
  | pause =>
    by_cases hs : s.status = TaskStatus.running
    · simp [TaskOp.apply, TaskManager.pauseTask, hs, TaskState.set_status,
        TaskStatus.is_terminal]
    · simpa [TaskOp.apply, TaskManager.pauseTask, hs] using h
  | resume =>
    by_cases hs : s.status = TaskStatus.paused
    · simp [TaskOp.apply, TaskManager.resumeTask, hs, TaskState.set_status,
        TaskStatus.is_terminal]
    · simpa [TaskOp.apply, TaskManager.resumeTask, hs] using h
  | setProgress p m =>
    simpa [TaskOp.apply, TaskState.set_progress] using h

theorem runTaskOps_terminal_finished (ops : List TaskOp) :
    (runTaskOps ops).status.is_terminal = true →
      (runTaskOps ops).finished_at.isSome = true := by
  suffices h : ∀ s : TaskState,
      (s.status.is_terminal = true → s.finished_at.isSome = true) →
      ((ops.foldl (fun s op => op.apply s) s).status.is_terminal = true →
        (ops.foldl (fun s op => op.apply s) s).finished_at.isSome = true) from
    h initialTask (by intro hc; simp [initialTask, TaskStatus.is_terminal] at hc)
  induction ops with
  | nil => exact fun s h => h
  | cons op rest ih =>
    exact fun s h => ih (op.apply s) (taskOp_preserves_terminal_finished s op h)

/-- C1 as stated fails on the code: `TaskHandle::start`,
`TaskHandle::complete`, `TaskHandle::fail` and `TaskManager::cancel` never
check the current status, so a task in the terminal `Completed` state is
moved back to `Running` by a later `start()`. -/
theorem c1_terminal_no_transition_counterexample :
    (runTaskOps [.complete 0]).status.is_terminal = true ∧
    (runTaskOps [.complete 0]).finished_at.isSome = true ∧
    (runTaskOps [.complete 0, .start 1]).status = .running ∧
    (runTaskOps [.complete 0, .start 1]).status.is_terminal = false :=
  ⟨rfl, rfl, rfl, rfl⟩

/-- C1 amended: along every operation sequence from creation, a task whose
status is terminal has `finished_at` set (every transition into a terminal
status stamps it); `pause` and `resume` from a terminal state reject with
`InvalidState` and leave the state unchanged, and `set_progress` never
changes the status or `finished_at`; but `start`, `cancel`, `complete` and
`fail` perform no source-state check, so they can still move a terminal
task to another status. -/
theorem c1_terminal_finished_amended (ops : List TaskOp) :
    ((runTaskOps ops).status.is_terminal = true →
      (runTaskOps ops).finished_at.isSome = true) ∧
    (∀ s : TaskState, s.status.is_terminal = true →
      TaskManager.pauseTask s =
        .error (.invalidState
          ("Cannot pause task in " ++ s.status.debugName ++ " state")) ∧
      TaskManager.resumeTask s =
        .error (.invalidState
          ("Cannot resume task in " ++ s.status.debugName ++ " state")) ∧
      TaskOp.apply .pause s = s ∧ TaskOp.apply .resume s = s) ∧
    (∀ s : TaskState, ∀ p : Nat, ∀ m : Option String,
      (TaskState.set_progress s p m).status = s.status ∧
      (TaskState.set_progress s p m).finished_at = s.finished_at) := by
  refine ⟨runTaskOps_terminal_finished ops, ?_, ?_⟩
  · intro s hterm
    have hrun : s.status ≠ TaskStatus.running := by
      intro hc
      rw [hc] at hterm
      simp [TaskStatus.is_terminal] at hterm
    have hpau : s.status ≠ TaskStatus.paused := by
      intro hc
      rw [hc] at hterm
      simp [TaskStatus.is_terminal] at hterm
    refine ⟨?_, ?_, ?_, ?_⟩
    · simp [TaskManager.pauseTask, hrun]
    · simp [TaskManager.resumeTask, hpau]
    · simp [TaskOp.apply, TaskManager.pauseTask, hrun]
    · simp [TaskOp.apply, TaskManager.resumeTask, hpau]
  · intro s p m
    exact ⟨rfl, rfl⟩

/-- Witness for the amended C1 on the concrete trace start-then-cancel. -/
theorem c1_terminal_finished_amended_witness :
    (runTaskOps [TaskOp.start 3, TaskOp.cancel 5]).finished_at.isSome = true :=
  (c1_terminal_finished_amended [TaskOp.start 3, TaskOp.cancel 5]).1 rfl

/-- C9: for every starting state and every input, after `set_progress(p,
msg)` the value read back by `progress()` is `min(p, 100)`; in particular
the stored progress never exceeds 100. -/
theorem c9_progress_clamp (s : TaskState) (p : Nat) (msg : Option String) :
    TaskHandle.progress (TaskHandle.set_progress s p msg) = min p 100 ∧
    TaskHandle.progress (TaskHandle.set_progress s p msg) ≤ 100 := by
  refine ⟨rfl, ?_⟩
  show min p 100 ≤ 100
  omega

/-! ## Thread channel: shutdown semantics and drain -/

theorem drainLoop_eq_aux {α : Type} :
    ∀ (n : Nat) (c : ThreadChannelSt α), c.queue.length ≤ n →
      ThreadReceiver.drainLoop c = { c with queue := [] } := by
  intro n
  induction n with
  | zero =>
    intro c h
    have hq : c.queue = [] := by
      cases hq : c.queue with
      | nil => rfl
      | cons x rest => rw [hq] at h; simp at h
    rw [ThreadReceiver.drainLoop.eq_def, hq]
    cases c
    simp_all
  | succ n ih =>
    intro c h
    rw [ThreadReceiver.drainLoop.eq_def]
    cases hq : c.queue with
    | nil =>
      cases c
      simp_all
    | cons x rest =>
      simp only []
      rw [ih { c with queue := rest } (by rw [hq] at h; simpa using h)]

theorem drainLoop_eq {α : Type} (c : ThreadChannelSt α) :
    ThreadReceiver.drainLoop c = { c with queue := [] } :=
  drainLoop_eq_aux c.queue.length c (le_refl _)

theorem shutdownTimeoutLoop_eq {α : Type} :
    ∀ (q : List α) (fuel : Nat) (c : ThreadChannelSt α), c.queue = q →
      q.length ≤ fuel →
      shutdownTimeoutLoop fuel c = (.ok (), { c with queue := [] }) := by
  intro q
  induction q with
  | nil =>
    intro fuel c h _
    rw [shutdownTimeoutLoop.eq_def, h]
    cases c
    simp_all
  | cons x rest ih =>
    intro fuel c h hf
    cases fuel with
    | zero => simp at hf
    | succ f =>
      rw [shutdownTimeoutLoop.eq_def, h]
      simp only []
      rw [ih f { c with queue := rest } rfl (by simpa using hf)]

/-- C5 as stated fails: with the shutdown state signalled, the queue empty
and a sender still alive, `try_recv` (and therefore `recv_timeout`, which
delegates to it after shutdown) returns `WouldBlock`, not `Closed` —
`try_recv` never consults the shutdown flag. -/
theorem c5_try_recv_not_closed_counterexample :
    c5State.shutdown = true ∧ c5State.queue = [] ∧
    (ThreadReceiver.try_recv c5State).1 = .err .wouldBlock ∧
    (ThreadReceiver.recv_timeout c5State).1 = .err .wouldBlock ∧
    (ChanRes.err (α := Nat) .wouldBlock ≠ .err .closed) :=
  ⟨rfl, rfl, rfl, rfl, by decide⟩

/-- C5 amended: on a channel whose attached `ShutdownState` is signalled,
`send`, `try_send` and `send_timeout` fail `Closed` at once and change
nothing; `recv`, `try_recv` and `recv_timeout` pop the head while the queue
is non-empty; on an empty queue `recv` returns `Closed`, while `try_recv`
and `recv_timeout` return `Closed` only once every sender has been dropped
and `WouldBlock` otherwise. -/
theorem c5_shutdown_semantics_amended {α : Type} (c : ThreadChannelSt α)
    (x : α) (hsd : c.shutdown = true) :
    ThreadSender.send c x = (.err .closed, c) ∧
    ThreadSender.try_send c x = (.err .closed, c) ∧
    ThreadSender.send_timeout c x = (.err .closed, c) ∧
    (∀ y rest, c.queue = y :: rest →
      ThreadReceiver.recv c = (.ok y, { c with queue := rest }) ∧
      ThreadReceiver.try_recv c = (.ok y, { c with queue := rest }) ∧
      ThreadReceiver.recv_timeout c = (.ok y, { c with queue := rest })) ∧
    (c.queue = [] →
      ThreadReceiver.recv c = (.err .closed, c) ∧
      ThreadReceiver.try_recv c =
        (if c.sendersDropped then (.err .closed, c) else (.err .wouldBlock, c)) ∧
      ThreadReceiver.recv_timeout c =
        (if c.sendersDropped then (.err .closed, c) else (.err .wouldBlock, c))) := by
  refine ⟨?_, ?_, ?_, ?_, ?_⟩
  · simp [ThreadSender.send, hsd]
  · simp [ThreadSender.try_send, hsd]
  · simp [ThreadSender.send_timeout, hsd]
  · intro y rest hq
    refine ⟨?_, ?_, ?_⟩
    · simp [ThreadReceiver.recv, hsd, hq]
    · simp [ThreadReceiver.try_recv, hq]
    · simp [ThreadReceiver.recv_timeout, ThreadReceiver.try_recv, hsd, hq]
  · intro hq
    refine ⟨?_, ?_, ?_⟩
    · simp [ThreadReceiver.recv, hsd, hq]
    · simp [ThreadReceiver.try_recv, hq]
    · simp [ThreadReceiver.recv_timeout, ThreadReceiver.try_recv, hsd, hq]

/-- Witness for the amended C5 at the concrete shutdown state with an empty
queue and senders alive. -/
theorem c5_shutdown_semantics_amended_witness :
    ThreadSender.send c5State 7 = (.err .closed, c5State) ∧
    ThreadSender.try_send c5State 7 = (.err .closed, c5State) ∧
    ThreadSender.send_timeout c5State 7 = (.err .closed, c5State) ∧
    (∀ y rest, c5State.queue = y :: rest →
      ThreadReceiver.recv c5State = (.ok y, { c5State with queue := rest }) ∧
      ThreadReceiver.try_recv c5State = (.ok y, { c5State with queue := rest }) ∧
      ThreadReceiver.recv_timeout c5State =
        (.ok y, { c5State with queue := rest })) ∧
    (c5State.queue = [] →
      ThreadReceiver.recv c5State = (.err .closed, c5State) ∧
      ThreadReceiver.try_recv c5State =
        (if c5State.sendersDropped then (.err .closed, c5State)
         else (.err .wouldBlock, c5State)) ∧
      ThreadReceiver.recv_timeout c5State =
        (if c5State.sendersDropped then (.err .closed, c5State)
         else (.err .wouldBlock, c5State))) :=
  c5_shutdown_semantics_amended c5State 7 rfl

/-- C10: `drain` on a `ThreadChannel` or a `ThreadReceiver` never touches
the pending-operation counter, discards every queued element without
delivering it, always returns `Ok`, and leaves the queue empty; and
`shutdown_timeout`, given enough time for the queue, likewise discards
every queued element and returns `Ok` with the shutdown flag set. -/
theorem c10_drain_discards {α : Type} (c : ThreadChannelSt α) (fuel : Nat) :
    ThreadChannel.drain c = (.ok (), { c with queue := [] }) ∧
    ThreadReceiver.drain c = (.ok (), { c with queue := [] }) ∧
    (c.queue.length ≤ fuel →
      ThreadChannel.shutdown_timeout fuel c =
        (.ok (), { c with queue := [], shutdown := true }) ∧
      ThreadReceiver.shutdown_timeout fuel c =
        (.ok (), { c with queue := [], shutdown := true })) := by
  refine ⟨?_, ?_, fun hf => ⟨?_, ?_⟩⟩
  · simp [ThreadChannel.drain, drainLoop_eq]
  · simp [ThreadReceiver.drain, drainLoop_eq]
  · rw [ThreadChannel.shutdown_timeout,
      shutdownTimeoutLoop_eq c.queue fuel { c with shutdown := true } rfl hf]
  · rw [ThreadReceiver.shutdown_timeout,
      shutdownTimeoutLoop_eq c.queue fuel { c with shutdown := true } rfl hf]

/-- Witness for C10 at a concrete channel holding three undelivered
messages and a non-zero pending count. -/
theorem c10_drain_discards_witness :
    ThreadChannel.drain c10State = (.ok (), { c10State with queue := [] }) ∧
    ThreadReceiver.drain c10State = (.ok (), { c10State with queue := [] }) ∧
    (c10State.queue.length ≤ 3 →
      ThreadChannel.shutdown_timeout 3 c10State =
        (.ok (), { c10State with queue := [], shutdown := true }) ∧
      ThreadReceiver.shutdown_timeout 3 c10State =
        (.ok (), { c10State with queue := [], shutdown := true })) :=
  c10_drain_discards c10State 3

/-- Witness for C6 on the concrete trace: one operation begun, shutdown
signalled, the guard dropped. -/
theorem c6_shutdown_gates_and_drain_witness :
    ShutdownState.begin_operation (runShut [.beginOp, .shut, .dropGuard]).1 =
      (.error .closed, (runShut [.beginOp, .shut, .dropGuard]).1) ∧
    ShutdownState.wait_for_drain_none (runShut [.beginOp, .shut, .dropGuard]).1 =
      some () :=
  ⟨(c6_shutdown_gates_and_drain [.beginOp, .shut, .dropGuard]).1 rfl,
   (c6_shutdown_gates_and_drain [.beginOp, .shut, .dropGuard]).2.2 rfl⟩

end Ipckit
